import Mathlib

/-!
Shallow embedding of the core of `main.go` (the "lmk" food-safety report
scraper): the text normalizer (`trimText`, `fixDateString`), the row
extractor (`sel2item`), the document loader's post-fetch logic
(`loadItems` over an abstract document), and the deduplication loop of
`run`.  HTML selections are modelled as lists of cells carrying their
raw text, the optional inner markup of the `.text p` sub-element, and the
row's markup rendering used in error messages.  Machine `time.Time`
values are modelled as calendar dates (`GoDate`), whose zero value is
January 1 of year 1, matching Go's zero `time.Time`.
-/

deriving instance DecidableEq for Except

namespace Lmk

/-- Embeds `trimText` (main.go line 76): `strings.Trim(t, " \t\r\n")`,
removing the characters of that exact cutset from both ends. -/
def isCutChar (c : Char) : Bool :=
  c = ' ' || c = '\t' || c = '\r' || c = '\n'

def trimText (t : String) : String :=
  String.mk (((t.data.dropWhile isCutChar).reverse.dropWhile isCutChar).reverse)

/-- Embeds `strings.Split(s, sep)[0]` for a nonempty `sep`: the part of
`s` before the first occurrence of `sep`, or all of `s` when `sep` does
not occur. -/
def takeUntilSeq (sep : List Char) : List Char → List Char
  | [] => []
  | c :: cs => if sep.isPrefixOf (c :: cs) then [] else c :: takeUntilSeq sep cs

def splitFirst (s sep : String) : String :=
  String.mk (takeUntilSeq sep.data s.data)

/-- Embeds `fixDateString` (main.go lines 80-86): four successive
`strings.Split(str, sep)[0]` truncations. -/
def fixDateString (str : String) : String :=
  let s1 := splitFirst str "/"
  let s2 := splitFirst s1 " und "
  let s3 := splitFirst s2 " bis "
  splitFirst s3 ", "

/-- Embeds `strings.Contains(s, needle)` for the single-character needles
`"."` used by main.go; for a one-character pattern substring containment
is character membership. -/
def containsChar (s : String) (c : Char) : Bool :=
  s.data.contains c

/-- Embeds `strings.ReplaceAll` for a nonempty pattern: replaces every
non-overlapping occurrence of `pat`, scanning left to right.  The only
call site uses the nonempty pattern `"<br/>"`; the `pat.length ≥ 1`
guard only rules out the empty pattern, on which Go behaves differently
and which never occurs. -/
def replaceSeq (pat rep : List Char) : List Char → List Char
  | [] => []
  | c :: cs =>
    if pat.isPrefixOf (c :: cs) ∧ 1 ≤ pat.length then
      rep ++ replaceSeq pat rep (List.drop (pat.length - 1) cs)
    else
      c :: replaceSeq pat rep cs
termination_by l => l.length
decreasing_by
  · simp only [List.length_cons]
    have h1 : (List.drop (pat.length - 1) cs).length ≤ cs.length := by
      rw [List.length_drop]; omega
    omega
  · simp

def replaceAllStr (s pat rep : String) : String :=
  String.mk (replaceSeq pat.data rep.data s.data)

/-- Calendar date as parsed by `time.Parse("02.01.2006", ...)`; Go's zero
`time.Time` corresponds to year 1, month 1, day 1. -/
structure GoDate where
  year : Nat
  month : Nat
  day : Nat
deriving DecidableEq

def zeroDate : GoDate := ⟨1, 1, 1⟩

/-- Embeds Go's Gregorian leap-year rule (`time.isLeap`). -/
def isLeapYear (y : Nat) : Bool :=
  y % 4 = 0 && (y % 100 ≠ 0 || y % 400 = 0)

/-- Embeds Go's `daysIn(month, year)`. -/
def daysIn (m y : Nat) : Nat :=
  if m = 2 then (if isLeapYear y then 29 else 28)
  else if m = 4 ∨ m = 6 ∨ m = 9 ∨ m = 11 then 30
  else 31

def digitVal (c : Char) : Nat := c.toNat - 48

/-- Embeds `time.Parse("02.01.2006", s)`: exactly two digits of day, a
literal dot, two digits of month, a literal dot, four digits of year,
nothing else; the month must lie in 1..12 and the day in 1..daysIn,
otherwise parsing fails ("month/day out of range"). -/
def parseDDMMYYYY (s : String) : Option GoDate :=
  match s.data with
  | [d1, d2, p1, m1, m2, p2, y1, y2, y3, y4] =>
    if d1.isDigit ∧ d2.isDigit ∧ p1 = '.' ∧ m1.isDigit ∧ m2.isDigit ∧ p2 = '.'
        ∧ y1.isDigit ∧ y2.isDigit ∧ y3.isDigit ∧ y4.isDigit then
      let day := 10 * digitVal d1 + digitVal d2
      let month := 10 * digitVal m1 + digitVal m2
      let year := 1000 * digitVal y1 + 100 * digitVal y2 + 10 * digitVal y3 + digitVal y4
      if 1 ≤ month ∧ month ≤ 12 ∧ 1 ≤ day ∧ day ≤ daysIn month year then
        some ⟨year, month, day⟩
      else
        none
    else
      none
  | _ => none

/-- One table cell of a row selection: its raw visible text (goquery
`Text()`), and the markup of its `.text p` sub-element when that
selection is nonempty and renders without error (`none` covers both the
empty selection, whose `Html()` is `""`, and a rendering error, both of
which make the code keep the plain text). -/
structure Cell where
  text : String
  inner : Option String
deriving DecidableEq

/-- A row-like selection: its cells in document order plus the diagnostic
markup rendering `s.Html()` used in error messages (a rendering failure
only changes the message text, so it is folded into this string). -/
structure RowSel where
  cells : List Cell
  html : String
deriving DecidableEq

/-- Embeds the `item` struct (main.go lines 88-99). -/
structure item where
  Authority : String
  PublishedAt : GoDate
  PublishedAtStr : String
  FoundAt : GoDate
  FoundAtStr : String
  Name : String
  Address : String
  Reason : String
  LegalBasis : String
  Info : String
deriving DecidableEq

def invalidPartsMsg (got : Nat) (details : String) : String :=
  "invalid number of parts found " ++ toString got ++ "/8: " ++ details

/-- Embeds the cell-count tolerance of `sel2item` (main.go lines 110-120):
exactly 8 cells pass through, exactly 7 get an empty info column
appended, anything else is an error carrying the row's markup. -/
def padCells (ss : List String) (details : String) : Except String (List String) :=
  if ss.length = 8 then Except.ok ss
  else if ss.length = 7 then Except.ok (ss ++ [""])
  else Except.error (invalidPartsMsg ss.length details)

/-- The per-cell trimmed texts collected by the `s.Each` closure
(main.go lines 104-107). -/
def cellTexts (cs : List Cell) : List String :=
  cs.map (fun c => trimText c.text)

/-- Embeds the found-at rich-markup override (main.go lines 143-148): if
the fifth cell's `.text p` markup contains a dot, its `<br/>` tags
replaced by `" / "` supersede the plain column text. -/
def foundAtRich (row : RowSel) (fallback : String) : String :=
  let t := ((row.cells.getD 4 ⟨"", none⟩).inner).getD ""
  if containsChar t '.' then replaceAllStr t "<br/>" " / " else fallback

/-- The field assignment `itm.PublishedAt = publishedAt` of main.go
line 170. -/
def setPub (itm : item) (d : GoDate) : item := { itm with PublishedAt := d }

/-- The field assignment `itm.FoundAt = foundAt` of main.go line 179. -/
def setFound (itm : item) (d : GoDate) : item := { itm with FoundAt := d }

/-- Embeds the published-at parsing block (main.go lines 164-171): after a
final trim, a string containing a dot must parse as `DD.MM.YYYY` or the
extraction fails; a dotless string leaves the date at its zero value. -/
def applyPublishedAt (itm : item) : Except String item :=
  let p := trimText itm.PublishedAtStr
  if containsChar p '.' then
    match parseDDMMYYYY p with
    | none => Except.error ("failed to parse published at " ++ p)
    | some d => Except.ok (setPub itm d)
  else
    Except.ok itm

/-- Embeds the found-at parsing block (main.go lines 173-180). -/
def applyFoundAt (itm : item) : Except String item :=
  let f := trimText itm.FoundAtStr
  if containsChar f '.' then
    match parseDDMMYYYY f with
    | none => Except.error ("failed to parse found at " ++ f)
    | some d => Except.ok (setFound itm d)
  else
    Except.ok itm

/-- The record assembled at main.go lines 153-162, before date parsing:
`ss` is the padded, re-trimmed field slice; the raw date strings have
passed through `fixDateString` (and, for found-at, the rich-markup
override) but receive no further trim. -/
def baseItem (row : RowSel) (ss : List String) : item :=
  { Authority := ss.getD 0 ""
    PublishedAt := zeroDate
    PublishedAtStr := fixDateString (ss.getD 1 "")
    FoundAt := zeroDate
    FoundAtStr := fixDateString (foundAtRich row (ss.getD 4 ""))
    Name := ss.getD 2 ""
    Address := ss.getD 3 ""
    Reason := ss.getD 5 ""
    LegalBasis := ss.getD 6 ""
    Info := ss.getD 7 "" }

/-- Embeds `sel2item` (main.go lines 101-183).  The Go code indexes the
padded slice at 0..7; since the padded list always has length 8, the
total `getD` indexing used here coincides with Go's (panicking) indexing
on every reachable input. -/
def sel2item (row : RowSel) : Except String item :=
  match padCells (cellTexts row.cells) row.html with
  | Except.error e => Except.error e
  | Except.ok ss0 =>
    match applyPublishedAt (baseItem row (ss0.map trimText)) with
    | Except.error e => Except.error e
    | Except.ok itm1 => applyFoundAt itm1

/-- The concatenated visible text of a row's cells, modelling goquery
`Text()` on the `td` selection (used for the sentinel check in
main.go line 237). -/
def rowText (r : RowSel) : String :=
  String.join (r.cells.map Cell.text)

/-- Embeds `time.Time.Compare` restricted to the dates this program
constructs (midnight UTC instants): chronological comparison of such
instants is the lexicographic comparison of (year, month, day). -/
def GoDate.cmp (a b : GoDate) : Ordering :=
  if a.year < b.year then Ordering.lt
  else if b.year < a.year then Ordering.gt
  else if a.month < b.month then Ordering.lt
  else if b.month < a.month then Ordering.gt
  else if a.day < b.day then Ordering.lt
  else if b.day < a.day then Ordering.gt
  else Ordering.eq

/-- The ordering used by `slices.SortStableFunc` (main.go lines 260-262):
`a` may precede `b` when `a.PublishedAt.Compare(b.PublishedAt) <= 0`. -/
def itemLe (a b : item) : Bool :=
  match GoDate.cmp a.PublishedAt b.PublishedAt with
  | Ordering.gt => false
  | _ => true

/-- Embeds the `tbody tr` iteration of `loadItems` (main.go lines
231-257): sentinel rows are skipped, every other row goes through
`sel2item`, and the first failure aborts with the wrapped error
(the rows extracted before it are discarded). -/
def processRows : List RowSel → Except String (List item)
  | [] => Except.ok []
  | r :: rs =>
    if rowText r = "Startseite" then processRows rs
    else
      match sel2item r with
      | Except.error e =>
        Except.error ("failed to retrieve item from selection " ++ r.html ++ ": " ++ e)
      | Except.ok itm =>
        match processRows rs with
        | Except.error e => Except.error e
        | Except.ok items => Except.ok (itm :: items)

/-- A fetched document after locating `#consumerInfoTable`: the header
selection (`thead th p`) and the body rows (`tbody tr`, each reduced to
its `td` cells plus the `tr` markup for diagnostics). -/
structure Doc where
  headerRow : RowSel
  bodyRows : List RowSel
deriving DecidableEq

/-- The negated header comparison of main.go lines 220-227: true when
any of the eight parsed header fields differs from its expected label. -/
def headerMismatch (hl : item) : Prop :=
  hl.Authority ≠ "Behörde"
    ∨ hl.PublishedAtStr ≠ "Datum Veröffentlichung"
    ∨ hl.FoundAtStr ≠ "Feststellungstag"
    ∨ hl.Name ≠ "Betriebsbezeichnung"
    ∨ hl.Address ≠ "Anschrift"
    ∨ hl.Reason ≠ "Sachverhalt/Grund der Beanstandung"
    ∨ hl.LegalBasis ≠ "Rechtsgrundlage"
    ∨ hl.Info ≠ "Hinweise zur Mängelbeseitigung und Bemerkungen"

instance (hl : item) : Decidable (headerMismatch hl) := by
  unfold headerMismatch
  infer_instance

/-- Body-row extraction followed by the stable sort by published-at
(main.go lines 231-264). -/
def loadBody (rows : List RowSel) : Except String (List item) :=
  match processRows rows with
  | Except.error e => Except.error e
  | Except.ok items => Except.ok (items.mergeSort itemLe)

/-- Embeds the post-fetch logic of `loadItems` (main.go lines 213-264):
header sanity check against the eight fixed labels, body-row extraction,
then the stable sort by published-at. -/
def loadItems (doc : Doc) : Except String (List item) :=
  match sel2item doc.headerRow with
  | Except.error e => Except.error ("failed to retrieve table heading: " ++ e)
  | Except.ok hl =>
    if headerMismatch hl then
      Except.error "labels incorrect, has the page design changed?"
    else
      loadBody doc.bodyRows

/-- Outcome of one `stmt.ExecContext` insert, abstracting the sqlite
driver: success, a uniqueness-constraint violation (sqlite extended code
2067), or any other failure with its message. -/
inductive InsertOutcome where
  | inserted : InsertOutcome
  | uniqueViolation : InsertOutcome
  | otherError : String → InsertOutcome
deriving DecidableEq

/-- Embeds the deduplication loop of `run` (main.go lines 322-362),
parameterized by an oracle giving the database's response to the insert
attempted at each position of the batch.  Returns the `newItems` slice
together with the list of logged insert-failure messages, in order.
The gob encoding of an `item` (strings and times only) cannot fail, so
the encode-error branch is unreachable and not modelled. -/
def dedupLoop (exec : Nat → InsertOutcome) : Nat → List item → List item × List String
  | _, [] => ([], [])
  | k, itm :: rest =>
    match exec k with
    | InsertOutcome.inserted =>
      let r := dedupLoop exec (k + 1) rest
      (itm :: r.1, r.2)
    | InsertOutcome.uniqueViolation =>
      dedupLoop exec (k + 1) rest
    | InsertOutcome.otherError m =>
      let r := dedupLoop exec (k + 1) rest
      (r.1, ("failed to exec insert statement: " ++ m) :: r.2)

/-- The padded, twice-trimmed field list that `sel2item` indexes, exposed
for specification purposes (`none` when the cell count is invalid). -/
def paddedFields (row : RowSel) : Option (List String) :=
  match padCells (cellTexts row.cells) row.html with
  | Except.error _ => none
  | Except.ok ss => some (ss.map trimText)

/-- The raw published-at string as stored in the extracted record: the
second field after `fixDateString`, with no further trim. -/
def publishedAtRaw (row : RowSel) : String :=
  fixDateString (((paddedFields row).getD []).getD 1 "")

/-- The raw found-at string as stored in the extracted record: the fifth
field, possibly overridden by the rich-markup rule, after
`fixDateString`, with no further trim. -/
def foundAtRaw (row : RowSel) : String :=
  fixDateString (foundAtRich row (((paddedFields row).getD []).getD 4 ""))

/-- A date-ish raw string is unproblematic when, after the final trim, it
either contains no dot or parses as `DD.MM.YYYY`. -/
def dateOk (s : String) : Prop :=
  containsChar (trimText s) '.' = true → (parseDDMMYYYY (trimText s)).isSome = true

instance (s : String) : Decidable (dateOk s) := by
  unfold dateOk; infer_instance

/-- The eight expected header labels of the sanity check
(main.go lines 220-227), as a predicate on the extracted header record. -/
def headerLabelsOk (hl : item) : Prop :=
  hl.Authority = "Behörde"
    ∧ hl.PublishedAtStr = "Datum Veröffentlichung"
    ∧ hl.FoundAtStr = "Feststellungstag"
    ∧ hl.Name = "Betriebsbezeichnung"
    ∧ hl.Address = "Anschrift"
    ∧ hl.Reason = "Sachverhalt/Grund der Beanstandung"
    ∧ hl.LegalBasis = "Rechtsgrundlage"
    ∧ hl.Info = "Hinweise zur Mängelbeseitigung und Bemerkungen"

instance (hl : item) : Decidable (headerLabelsOk hl) := by
  unfold headerLabelsOk; infer_instance

/-! Concrete fixtures used to exercise the theorems. -/

def plainCell (t : String) : Cell := ⟨t, none⟩

def cells8 (published foundAt : String) : List Cell :=
  [plainCell "Amt A", plainCell published, plainCell "Firma", plainCell "Weg 1",
   plainCell foundAt, plainCell "Grund", plainCell "Art 1", plainCell "Hinweis"]

def okRow8 : RowSel := ⟨cells8 "15.04.2025" "16.04.2025", "<tr>ok8</tr>"⟩

def okRow7 : RowSel := ⟨(cells8 "15.04.2025" "16.04.2025").take 7, "<tr>ok7</tr>"⟩

def badRow6 : RowSel := ⟨(cells8 "15.04.2025" "16.04.2025").take 6, "<tr>bad6</tr>"⟩

def badDateRow8 : RowSel := ⟨cells8 "x.y" "16.04.2025", "<tr>baddate</tr>"⟩

def zRow8 : RowSel := ⟨cells8 "15.04.2025" "abcz", "<tr>z</tr>"⟩

def spaceRow8 : RowSel := ⟨cells8 "27.03.2025 / 28.03.2025" "16.04.2025", "<tr>sp</tr>"⟩

def year0Row8 : RowSel := ⟨cells8 "31.12.0000" "Text ohne Datum", "<tr>y0</tr>"⟩

def noDateRow8 : RowSel := ⟨cells8 "siehe Hinweis" "Text ohne Datum", "<tr>nd</tr>"⟩

def sentinelRow : RowSel := ⟨[plainCell "Startseite"], "<tr>home</tr>"⟩

def headerCells : List Cell :=
  [plainCell "Behörde", plainCell "Datum Veröffentlichung", plainCell "Betriebsbezeichnung",
   plainCell "Anschrift", plainCell "Feststellungstag",
   plainCell "Sachverhalt/Grund der Beanstandung", plainCell "Rechtsgrundlage",
   plainCell "Hinweise zur Mängelbeseitigung und Bemerkungen"]

def headerRowGood : RowSel := ⟨headerCells, "<tr>head</tr>"⟩

def headerRowBad : RowSel :=
  ⟨[plainCell "Behorde"] ++ headerCells.drop 1, "<tr>headbad</tr>"⟩

def okItem8 : item :=
  { Authority := "Amt A", PublishedAt := ⟨2025, 4, 15⟩, PublishedAtStr := "15.04.2025",
    FoundAt := ⟨2025, 4, 16⟩, FoundAtStr := "16.04.2025", Name := "Firma",
    Address := "Weg 1", Reason := "Grund", LegalBasis := "Art 1", Info := "Hinweis" }

def spaceItem : item :=
  { Authority := "Amt A", PublishedAt := ⟨2025, 3, 27⟩, PublishedAtStr := "27.03.2025 ",
    FoundAt := ⟨2025, 4, 16⟩, FoundAtStr := "16.04.2025", Name := "Firma",
    Address := "Weg 1", Reason := "Grund", LegalBasis := "Art 1", Info := "Hinweis" }

def zItem : item :=
  { Authority := "Amt A", PublishedAt := ⟨2025, 4, 15⟩, PublishedAtStr := "15.04.2025",
    FoundAt := zeroDate, FoundAtStr := "abcz", Name := "Firma",
    Address := "Weg 1", Reason := "Grund", LegalBasis := "Art 1", Info := "Hinweis" }

def goodHeaderItem : item :=
  { Authority := "Behörde", PublishedAt := zeroDate,
    PublishedAtStr := "Datum Veröffentlichung", FoundAt := zeroDate,
    FoundAtStr := "Feststellungstag", Name := "Betriebsbezeichnung",
    Address := "Anschrift", Reason := "Sachverhalt/Grund der Beanstandung",
    LegalBasis := "Rechtsgrundlage",
    Info := "Hinweise zur Mängelbeseitigung und Bemerkungen" }

def badHeaderItem : item :=
  { goodHeaderItem with Authority := "Behorde" }

def wrappedFailMsg : String :=
  "failed to retrieve item from selection <tr>baddate</tr>: failed to parse published at x.y"

def cDocGood : Doc := ⟨headerRowGood, [okRow8]⟩

def cDocBad : Doc := ⟨headerRowBad, [okRow8]⟩

def cDocZero : Doc := ⟨headerRowGood, [year0Row8, noDateRow8]⟩

def y0Item : item :=
  { Authority := "Amt A", PublishedAt := ⟨0, 12, 31⟩, PublishedAtStr := "31.12.0000",
    FoundAt := zeroDate, FoundAtStr := "Text ohne Datum", Name := "Firma",
    Address := "Weg 1", Reason := "Grund", LegalBasis := "Art 1", Info := "Hinweis" }

def ndItem : item :=
  { Authority := "Amt A", PublishedAt := zeroDate, PublishedAtStr := "siehe Hinweis",
    FoundAt := zeroDate, FoundAtStr := "Text ohne Datum", Name := "Firma",
    Address := "Weg 1", Reason := "Grund", LegalBasis := "Art 1", Info := "Hinweis" }

/-! Theorems. -/

/-- C4, counterexample: splitting `"27.03.2025 / 28.03.2025"` on `"/"`
keeps the character before the delimiter, so the first segment is
`"27.03.2025 "` with a trailing space, not `"27.03.2025"`. -/
theorem fixDateString_first_example_cex :
    fixDateString "27.03.2025 / 28.03.2025" = "27.03.2025 "
      ∧ ("27.03.2025 " : String) ≠ "27.03.2025" := by
  exact ⟨by decide, by decide⟩

/-- C4, amended: the four example truncations of `fixDateString`, with
the first result carrying the trailing space that the raw text has
before the `"/"` delimiter; the other three delimiters include the
surrounding spaces, so those results carry none. -/
theorem fixDateString_examples :
    fixDateString "27.03.2025 / 28.03.2025" = "27.03.2025 "
      ∧ fixDateString "10.06.2025 und 25.06.2025" = "10.06.2025"
      ∧ fixDateString "10.06.2025 bis 25.06.2025" = "10.06.2025"
      ∧ fixDateString "09.12.2025, 10.12.2025" = "09.12.2025" := by
  refine ⟨by decide, by decide, by decide, by decide⟩

theorem prefix_takeUntilSeq (sep : List Char) (l : List Char) :
    takeUntilSeq sep l <+: l := by
  induction l with
  | nil => simp [takeUntilSeq]
  | cons c cs ih =>
    unfold takeUntilSeq
    by_cases h : sep.isPrefixOf (c :: cs) = true
    · simp [h]
    · simp only [h, if_false, Bool.false_eq_true]
      exact (List.cons_prefix_cons).mpr ⟨rfl, ih⟩

theorem not_occurs_takeUntilSeq (sep : List Char) (hne : sep ≠ []) (l : List Char) :
    ¬ sep <:+: takeUntilSeq sep l := by
  induction l with
  | nil =>
    simp only [takeUntilSeq]
    intro h
    exact hne (List.eq_nil_of_infix_nil h)
  | cons c cs ih =>
    unfold takeUntilSeq
    by_cases h : sep.isPrefixOf (c :: cs) = true
    · simp only [h, if_true]
      intro hc
      exact hne (List.eq_nil_of_infix_nil hc)
    · simp only [h, if_false, Bool.false_eq_true]
      intro hinf
      rcases List.infix_cons_iff.mp hinf with hpre | htail
      · have hc : c :: takeUntilSeq sep cs <+: c :: cs :=
          (List.cons_prefix_cons).mpr ⟨rfl, prefix_takeUntilSeq sep cs⟩
        have : sep <+: c :: cs := hpre.trans hc
        exact h (( List.isPrefixOf_iff_prefix).mpr this)
      · exact ih htail

theorem takeUntilSeq_no_occurrence (sep : List Char) (l : List Char)
    (h : ¬ sep <:+: l) : takeUntilSeq sep l = l := by
  induction l with
  | nil => simp [takeUntilSeq]
  | cons c cs ih =>
    unfold takeUntilSeq
    by_cases hp : sep.isPrefixOf (c :: cs) = true
    · exact absurd ( List.IsPrefix.isInfix (( List.isPrefixOf_iff_prefix).mp hp)) h
    · simp only [hp, if_false, Bool.false_eq_true]
      rw [ih (fun hc => h (List.infix_cons hc))]

/-- C10: `fixDateString` is idempotent; its output contains none of the
four delimiters, so a second pass leaves it unchanged. -/
theorem fixDateString_idem (s : String) :
    fixDateString (fixDateString s) = fixDateString s
      ∧ ¬ ("/".data <:+: (fixDateString s).data)
      ∧ ¬ (" und ".data <:+: (fixDateString s).data)
      ∧ ¬ (" bis ".data <:+: (fixDateString s).data)
      ∧ ¬ (", ".data <:+: (fixDateString s).data) := by
  have hmk : ∀ l : List Char, (String.mk l).data = l := fun _ => rfl
  have hform : ∀ t : String, ∀ sep : String, (splitFirst t sep).data
      = takeUntilSeq sep.data t.data := fun _ _ => rfl
  set t1 := takeUntilSeq "/".data s.data with ht1
  set t2 := takeUntilSeq " und ".data t1 with ht2
  set t3 := takeUntilSeq " bis ".data t2 with ht3
  set t4 := takeUntilSeq ", ".data t3 with ht4
  have hdata : (fixDateString s).data = t4 := rfl
  have hp2 : t2 <+: t1 := prefix_takeUntilSeq _ _
  have hp3 : t3 <+: t2 := prefix_takeUntilSeq _ _
  have hp4 : t4 <+: t3 := prefix_takeUntilSeq _ _
  have h41 : t4 <+: t1 := hp4.trans (hp3.trans hp2)
  have h42 : t4 <+: t2 := hp4.trans hp3
  have hno1 : ¬ ("/".data <:+: t4) := fun hc =>
    not_occurs_takeUntilSeq "/".data (by decide) s.data
      (hc.trans ( List.IsPrefix.isInfix h41))
  have hno2 : ¬ (" und ".data <:+: t4) := fun hc =>
    not_occurs_takeUntilSeq " und ".data (by decide) t1
      (hc.trans ( List.IsPrefix.isInfix h42))
  have hno3 : ¬ (" bis ".data <:+: t4) := fun hc =>
    not_occurs_takeUntilSeq " bis ".data (by decide) t2
      (hc.trans ( List.IsPrefix.isInfix hp4))
  have hno4 : ¬ (", ".data <:+: t4) :=
    not_occurs_takeUntilSeq ", ".data (by decide) t3
  refine ⟨?_, ?_, ?_, ?_, ?_⟩
  · show String.mk (takeUntilSeq ", ".data (takeUntilSeq " bis ".data
      (takeUntilSeq " und ".data (takeUntilSeq "/".data (fixDateString s).data))))
        = fixDateString s
    rw [hdata]
    rw [takeUntilSeq_no_occurrence _ _ hno1, takeUntilSeq_no_occurrence _ _ hno2,
      takeUntilSeq_no_occurrence _ _ hno3, takeUntilSeq_no_occurrence _ _ hno4]
    rfl
  · rw [hdata]; exact hno1
  · rw [hdata]; exact hno2
  · rw [hdata]; exact hno3
  · rw [hdata]; exact hno4

theorem padCells_len8 {ss : List String} {d : String} (h : ss.length = 8) :
    padCells ss d = Except.ok ss := by
  simp [padCells, h]

theorem padCells_len7 {ss : List String} {d : String} (h : ss.length = 7) :
    padCells ss d = Except.ok (ss ++ [""]) := by
  simp [padCells, h]

theorem padCells_invalid {ss : List String} {d : String}
    (h8 : ss.length ≠ 8) (h7 : ss.length ≠ 7) :
    padCells ss d = Except.error (invalidPartsMsg ss.length d) := by
  simp [padCells, h8, h7]

theorem length_cellTexts (cs : List Cell) : (cellTexts cs).length = cs.length := by
  simp [cellTexts]

@[simp] theorem setPub_Authority (itm : item) (d : GoDate) :
    (setPub itm d).Authority = itm.Authority := rfl

@[simp] theorem setPub_PublishedAt (itm : item) (d : GoDate) :
    (setPub itm d).PublishedAt = d := rfl

@[simp] theorem setPub_PublishedAtStr (itm : item) (d : GoDate) :
    (setPub itm d).PublishedAtStr = itm.PublishedAtStr := rfl

@[simp] theorem setPub_FoundAt (itm : item) (d : GoDate) :
    (setPub itm d).FoundAt = itm.FoundAt := rfl

@[simp] theorem setPub_FoundAtStr (itm : item) (d : GoDate) :
    (setPub itm d).FoundAtStr = itm.FoundAtStr := rfl

@[simp] theorem setPub_Name (itm : item) (d : GoDate) :
    (setPub itm d).Name = itm.Name := rfl

@[simp] theorem setPub_Address (itm : item) (d : GoDate) :
    (setPub itm d).Address = itm.Address := rfl

@[simp] theorem setPub_Reason (itm : item) (d : GoDate) :
    (setPub itm d).Reason = itm.Reason := rfl

@[simp] theorem setPub_LegalBasis (itm : item) (d : GoDate) :
    (setPub itm d).LegalBasis = itm.LegalBasis := rfl

@[simp] theorem setPub_Info (itm : item) (d : GoDate) :
    (setPub itm d).Info = itm.Info := rfl

@[simp] theorem setFound_Authority (itm : item) (d : GoDate) :
    (setFound itm d).Authority = itm.Authority := rfl

@[simp] theorem setFound_PublishedAt (itm : item) (d : GoDate) :
    (setFound itm d).PublishedAt = itm.PublishedAt := rfl

@[simp] theorem setFound_PublishedAtStr (itm : item) (d : GoDate) :
    (setFound itm d).PublishedAtStr = itm.PublishedAtStr := rfl

@[simp] theorem setFound_FoundAt (itm : item) (d : GoDate) :
    (setFound itm d).FoundAt = d := rfl

@[simp] theorem setFound_FoundAtStr (itm : item) (d : GoDate) :
    (setFound itm d).FoundAtStr = itm.FoundAtStr := rfl

@[simp] theorem setFound_Name (itm : item) (d : GoDate) :
    (setFound itm d).Name = itm.Name := rfl

@[simp] theorem setFound_Address (itm : item) (d : GoDate) :
    (setFound itm d).Address = itm.Address := rfl

@[simp] theorem setFound_Reason (itm : item) (d : GoDate) :
    (setFound itm d).Reason = itm.Reason := rfl

@[simp] theorem setFound_LegalBasis (itm : item) (d : GoDate) :
    (setFound itm d).LegalBasis = itm.LegalBasis := rfl

@[simp] theorem setFound_Info (itm : item) (d : GoDate) :
    (setFound itm d).Info = itm.Info := rfl

theorem baseItem_Authority (row : RowSel) (ss : List String) :
    (baseItem row ss).Authority = ss.getD 0 "" := rfl

theorem baseItem_PublishedAt (row : RowSel) (ss : List String) :
    (baseItem row ss).PublishedAt = zeroDate := rfl

theorem baseItem_PublishedAtStr (row : RowSel) (ss : List String) :
    (baseItem row ss).PublishedAtStr = fixDateString (ss.getD 1 "") := rfl

theorem baseItem_FoundAt (row : RowSel) (ss : List String) :
    (baseItem row ss).FoundAt = zeroDate := rfl

theorem baseItem_FoundAtStr (row : RowSel) (ss : List String) :
    (baseItem row ss).FoundAtStr = fixDateString (foundAtRich row (ss.getD 4 "")) := rfl

theorem baseItem_Name (row : RowSel) (ss : List String) :
    (baseItem row ss).Name = ss.getD 2 "" := rfl

theorem baseItem_Address (row : RowSel) (ss : List String) :
    (baseItem row ss).Address = ss.getD 3 "" := rfl

theorem baseItem_Reason (row : RowSel) (ss : List String) :
    (baseItem row ss).Reason = ss.getD 5 "" := rfl

theorem baseItem_LegalBasis (row : RowSel) (ss : List String) :
    (baseItem row ss).LegalBasis = ss.getD 6 "" := rfl

theorem baseItem_Info (row : RowSel) (ss : List String) :
    (baseItem row ss).Info = ss.getD 7 "" := rfl

theorem applyPublishedAt_cases (itm : item) :
    (containsChar (trimText itm.PublishedAtStr) '.' = false
        ∧ applyPublishedAt itm = Except.ok itm)
    ∨ (containsChar (trimText itm.PublishedAtStr) '.' = true
        ∧ ∃ d, parseDDMMYYYY (trimText itm.PublishedAtStr) = some d
          ∧ applyPublishedAt itm = Except.ok (setPub itm d))
    ∨ (containsChar (trimText itm.PublishedAtStr) '.' = true
        ∧ parseDDMMYYYY (trimText itm.PublishedAtStr) = none
        ∧ applyPublishedAt itm
            = Except.error ("failed to parse published at " ++ trimText itm.PublishedAtStr)) := by
  by_cases hc : containsChar (trimText itm.PublishedAtStr) '.' = true
  · cases hp : parseDDMMYYYY (trimText itm.PublishedAtStr) with
    | none => exact Or.inr (Or.inr ⟨hc, rfl, by simp [applyPublishedAt, hc, hp]⟩)
    | some d => exact Or.inr (Or.inl ⟨hc, d, rfl, by simp [applyPublishedAt, hc, hp]⟩)
  · exact Or.inl ⟨by simpa using hc, by simp [applyPublishedAt, hc]⟩

theorem applyFoundAt_cases (itm : item) :
    (containsChar (trimText itm.FoundAtStr) '.' = false
        ∧ applyFoundAt itm = Except.ok itm)
    ∨ (containsChar (trimText itm.FoundAtStr) '.' = true
        ∧ ∃ d, parseDDMMYYYY (trimText itm.FoundAtStr) = some d
          ∧ applyFoundAt itm = Except.ok (setFound itm d))
    ∨ (containsChar (trimText itm.FoundAtStr) '.' = true
        ∧ parseDDMMYYYY (trimText itm.FoundAtStr) = none
        ∧ applyFoundAt itm
            = Except.error ("failed to parse found at " ++ trimText itm.FoundAtStr)) := by
  by_cases hc : containsChar (trimText itm.FoundAtStr) '.' = true
  · cases hp : parseDDMMYYYY (trimText itm.FoundAtStr) with
    | none => exact Or.inr (Or.inr ⟨hc, rfl, by simp [applyFoundAt, hc, hp]⟩)
    | some d => exact Or.inr (Or.inl ⟨hc, d, rfl, by simp [applyFoundAt, hc, hp]⟩)
  · exact Or.inl ⟨by simpa using hc, by simp [applyFoundAt, hc]⟩

theorem sel2item_of_padCells {row : RowSel} {ss0 : List String}
    (h : padCells (cellTexts row.cells) row.html = Except.ok ss0) :
    sel2item row
      = match applyPublishedAt (baseItem row (ss0.map trimText)) with
        | Except.error e => Except.error e
        | Except.ok itm1 => applyFoundAt itm1 := by
  unfold sel2item
  rw [h]

theorem sel2item_pub_error {row : RowSel} {ss0 : List String} {e : String}
    (h : padCells (cellTexts row.cells) row.html = Except.ok ss0)
    (h2 : applyPublishedAt (baseItem row (ss0.map trimText)) = Except.error e) :
    sel2item row = Except.error e := by
  rw [sel2item_of_padCells h, h2]

theorem sel2item_pub_ok {row : RowSel} {ss0 : List String} {itm1 : item}
    (h : padCells (cellTexts row.cells) row.html = Except.ok ss0)
    (h2 : applyPublishedAt (baseItem row (ss0.map trimText)) = Except.ok itm1) :
    sel2item row = applyFoundAt itm1 := by
  rw [sel2item_of_padCells h, h2]

theorem publishedAtRaw_of {row : RowSel} {ss0 : List String}
    (h : padCells (cellTexts row.cells) row.html = Except.ok ss0) :
    publishedAtRaw row = (baseItem row (ss0.map trimText)).PublishedAtStr := by
  simp [publishedAtRaw, paddedFields, h, baseItem]

theorem foundAtRaw_of {row : RowSel} {ss0 : List String}
    (h : padCells (cellTexts row.cells) row.html = Except.ok ss0) :
    foundAtRaw row = (baseItem row (ss0.map trimText)).FoundAtStr := by
  simp [foundAtRaw, paddedFields, h, baseItem]

/-- Case analysis of the two date-parsing passes applied to an already
assembled record `b`: either one of them fails, or the pipeline returns
`b` with the two opportunistically parsed dates set. -/
theorem pipeline_cases (b : item) :
    (∃ e, (match applyPublishedAt b with
            | Except.error e => Except.error e
            | Except.ok itm1 => applyFoundAt itm1) = Except.error e
        ∧ ((containsChar (trimText b.PublishedAtStr) '.' = true
              ∧ parseDDMMYYYY (trimText b.PublishedAtStr) = none
              ∧ e = "failed to parse published at " ++ trimText b.PublishedAtStr)
            ∨ (containsChar (trimText b.FoundAtStr) '.' = true
              ∧ parseDDMMYYYY (trimText b.FoundAtStr) = none
              ∧ e = "failed to parse found at " ++ trimText b.FoundAtStr)))
    ∨ (∃ itm, (match applyPublishedAt b with
            | Except.error e => Except.error e
            | Except.ok itm1 => applyFoundAt itm1) = Except.ok itm
        ∧ itm.PublishedAtStr = b.PublishedAtStr
        ∧ itm.FoundAtStr = b.FoundAtStr
        ∧ itm.Authority = b.Authority
        ∧ itm.Name = b.Name
        ∧ itm.Address = b.Address
        ∧ itm.Reason = b.Reason
        ∧ itm.LegalBasis = b.LegalBasis
        ∧ itm.Info = b.Info
        ∧ itm.PublishedAt = (if containsChar (trimText b.PublishedAtStr) '.' = true
            then (parseDDMMYYYY (trimText b.PublishedAtStr)).getD b.PublishedAt
            else b.PublishedAt)
        ∧ itm.FoundAt = (if containsChar (trimText b.FoundAtStr) '.' = true
            then (parseDDMMYYYY (trimText b.FoundAtStr)).getD b.FoundAt
            else b.FoundAt)
        ∧ (containsChar (trimText b.PublishedAtStr) '.' = true
            → (parseDDMMYYYY (trimText b.PublishedAtStr)).isSome = true)
        ∧ (containsChar (trimText b.FoundAtStr) '.' = true
            → (parseDDMMYYYY (trimText b.FoundAtStr)).isSome = true)) := by
  rcases applyPublishedAt_cases b with ⟨hc, heq⟩ | ⟨hc, d, hp, heq⟩ | ⟨hc, hp, heq⟩
  · have hres : (match applyPublishedAt b with
        | Except.error e => Except.error e
        | Except.ok itm1 => applyFoundAt itm1) = applyFoundAt b := by rw [heq]
    rcases applyFoundAt_cases b with ⟨fc, feq⟩ | ⟨fc, d2, fp, feq⟩ | ⟨fc, fp, feq⟩
    · refine Or.inr ⟨b, by rw [hres, feq], ?_⟩
      refine ⟨rfl, rfl, rfl, rfl, rfl, rfl, rfl, rfl, ?_, ?_, ?_, ?_⟩
      · simp [hc]
      · simp [fc]
      · intro hcc; exact absurd hcc (by simp [hc])
      · intro hcc; exact absurd hcc (by simp [fc])
    · refine Or.inr ⟨setFound b d2, by rw [hres, feq], ?_⟩
      refine ⟨rfl, rfl, rfl, rfl, rfl, rfl, rfl, rfl, ?_, ?_, ?_, ?_⟩
      · simp [hc]
      · simp [fc, fp]
      · intro hcc; exact absurd hcc (by simp [hc])
      · intro _; simp [fp]
    · exact Or.inl ⟨_, by rw [hres, feq], Or.inr ⟨fc, fp, rfl⟩⟩
  · have hres : (match applyPublishedAt b with
        | Except.error e => Except.error e
        | Except.ok itm1 => applyFoundAt itm1) = applyFoundAt (setPub b d) := by rw [heq]
    rcases applyFoundAt_cases (setPub b d) with ⟨fc, feq⟩ | ⟨fc, d2, fp, feq⟩ | ⟨fc, fp, feq⟩
    · simp only [setPub_FoundAtStr] at fc
      refine Or.inr ⟨setPub b d, by rw [hres, feq], ?_⟩
      refine ⟨rfl, rfl, rfl, rfl, rfl, rfl, rfl, rfl, ?_, ?_, ?_, ?_⟩
      · simp [hc, hp]
      · simp [fc]
      · intro _; simp [hp]
      · intro hcc; exact absurd hcc (by simp [fc])
    · simp only [setPub_FoundAtStr] at fc fp
      refine Or.inr ⟨setFound (setPub b d) d2, by rw [hres, feq], ?_⟩
      refine ⟨rfl, rfl, rfl, rfl, rfl, rfl, rfl, rfl, ?_, ?_, ?_, ?_⟩
      · simp [hc, hp]
      · simp [fc, fp]
      · intro _; simp [hp]
      · intro _; simp [fp]
    · simp only [setPub_FoundAtStr] at fc fp
      refine Or.inl ⟨_, by rw [hres, feq], Or.inr ⟨fc, fp, by rw [setPub_FoundAtStr]⟩⟩
  · refine Or.inl ⟨_, by rw [heq], Or.inl ⟨hc, hp, rfl⟩⟩

/-- Master case analysis for `sel2item` on a row that passes the
cell-count check: either it fails on one of the two date fields, or it
returns the assembled record with the two opportunistically parsed
dates. -/
theorem sel2item_cases {row : RowSel} {ss0 : List String}
    (h : padCells (cellTexts row.cells) row.html = Except.ok ss0) :
    (∃ e, sel2item row = Except.error e
        ∧ ((containsChar (trimText (publishedAtRaw row)) '.' = true
              ∧ parseDDMMYYYY (trimText (publishedAtRaw row)) = none
              ∧ e = "failed to parse published at " ++ trimText (publishedAtRaw row))
            ∨ (containsChar (trimText (foundAtRaw row)) '.' = true
              ∧ parseDDMMYYYY (trimText (foundAtRaw row)) = none
              ∧ e = "failed to parse found at " ++ trimText (foundAtRaw row))))
    ∨ (∃ itm, sel2item row = Except.ok itm
        ∧ itm.PublishedAtStr = publishedAtRaw row
        ∧ itm.FoundAtStr = foundAtRaw row
        ∧ itm.Authority = (ss0.map trimText).getD 0 ""
        ∧ itm.Name = (ss0.map trimText).getD 2 ""
        ∧ itm.Address = (ss0.map trimText).getD 3 ""
        ∧ itm.Reason = (ss0.map trimText).getD 5 ""
        ∧ itm.LegalBasis = (ss0.map trimText).getD 6 ""
        ∧ itm.Info = (ss0.map trimText).getD 7 ""
        ∧ itm.PublishedAt = (if containsChar (trimText (publishedAtRaw row)) '.' = true
            then (parseDDMMYYYY (trimText (publishedAtRaw row))).getD zeroDate else zeroDate)
        ∧ itm.FoundAt = (if containsChar (trimText (foundAtRaw row)) '.' = true
            then (parseDDMMYYYY (trimText (foundAtRaw row))).getD zeroDate else zeroDate)
        ∧ (containsChar (trimText (publishedAtRaw row)) '.' = true
            → (parseDDMMYYYY (trimText (publishedAtRaw row))).isSome = true)
        ∧ (containsChar (trimText (foundAtRaw row)) '.' = true
            → (parseDDMMYYYY (trimText (foundAtRaw row))).isSome = true)) := by
  have hpr := publishedAtRaw_of h
  have hfr := foundAtRaw_of h
  have hs := sel2item_of_padCells h
  rw [hpr, hfr, hs]
  exact pipeline_cases (baseItem row (ss0.map trimText))

theorem sel2item_ok_padCells {row : RowSel} {itm : item}
    (h : sel2item row = Except.ok itm) :
    ∃ ss0, padCells (cellTexts row.cells) row.html = Except.ok ss0 := by
  unfold sel2item at h
  cases hp : padCells (cellTexts row.cells) row.html with
  | error e => rw [hp] at h; simp at h
  | ok ss0 => exact ⟨ss0, rfl⟩

theorem trimText_empty : trimText "" = "" := by decide

theorem getD7_of_append {l : List String} (h : l.length = 7) :
    ((l ++ [""]).map trimText).getD 7 "" = trimText "" := by
  rw [List.map_append, List.getD_eq_getElem?_getD, List.getElem?_append_right (by simp [h]),
    List.length_map, h]
  simp

/-- C2: after the final trim, a raw date string containing a dot must
parse as `DD.MM.YYYY` or the whole extraction fails; a dotless raw string
leaves the date field at its zero value and raises no error. -/
theorem extract_date_parsing (row : RowSel) (ss0 : List String)
    (h : padCells (cellTexts row.cells) row.html = Except.ok ss0) :
    (containsChar (trimText (publishedAtRaw row)) '.' = true
        → parseDDMMYYYY (trimText (publishedAtRaw row)) = none
        → ∃ e, sel2item row = Except.error e)
    ∧ (containsChar (trimText (foundAtRaw row)) '.' = true
        → parseDDMMYYYY (trimText (foundAtRaw row)) = none
        → ∃ e, sel2item row = Except.error e)
    ∧ (∀ itm, sel2item row = Except.ok itm →
        (containsChar (trimText (publishedAtRaw row)) '.' = false → itm.PublishedAt = zeroDate)
        ∧ (containsChar (trimText (foundAtRaw row)) '.' = false → itm.FoundAt = zeroDate)
        ∧ (∀ d, containsChar (trimText (publishedAtRaw row)) '.' = true
            → parseDDMMYYYY (trimText (publishedAtRaw row)) = some d → itm.PublishedAt = d)
        ∧ (∀ d, containsChar (trimText (foundAtRaw row)) '.' = true
            → parseDDMMYYYY (trimText (foundAtRaw row)) = some d → itm.FoundAt = d))
    ∧ (dateOk (publishedAtRaw row) → dateOk (foundAtRaw row)
        → ∃ itm, sel2item row = Except.ok itm) := by
  rcases sel2item_cases h with ⟨e, he, herr⟩ |
    ⟨itm, hok, hps, hfs, _, _, _, _, _, _, hPA, hFA, hPS, hFS⟩
  · refine ⟨fun _ _ => ⟨e, he⟩, fun _ _ => ⟨e, he⟩, ?_, ?_⟩
    · intro itm hitm
      rw [he] at hitm
      simp at hitm
    · intro hdp hdf
      rcases herr with ⟨hc, hp, _⟩ | ⟨hc, hp, _⟩
      · have hs := hdp hc
        rw [hp] at hs
        simp at hs
      · have hs := hdf hc
        rw [hp] at hs
        simp at hs
  · refine ⟨?_, ?_, ?_, fun _ _ => ⟨itm, hok⟩⟩
    · intro hc hp
      have hs := hPS hc
      rw [hp] at hs
      simp at hs
    · intro hc hp
      have hs := hFS hc
      rw [hp] at hs
      simp at hs
    · intro itm2 hitm2
      rw [hok] at hitm2
      have heq : itm = itm2 := Except.ok.inj hitm2
      subst heq
      refine ⟨?_, ?_, ?_, ?_⟩
      · intro hc
        rw [hPA, hc]
        simp
      · intro hc
        rw [hFA, hc]
        simp
      · intro d hc hp
        rw [hPA, if_pos hc, hp]
        rfl
      · intro d hc hp
        rw [hFA, if_pos hc, hp]
        rfl

/-- C2, witness: a fully dated 8-cell row extracts successfully, and an
8-cell row whose published-at text `"x.y"` contains a dot but is not a
date fails. -/
theorem extract_date_parsing_witness :
    (∃ itm, sel2item okRow8 = Except.ok itm)
    ∧ (∃ e, sel2item badDateRow8 = Except.error e) := by
  constructor
  · exact (extract_date_parsing okRow8 (cellTexts okRow8.cells)
      (by decide)).2.2.2 (by decide) (by decide)
  · exact (extract_date_parsing badDateRow8 (cellTexts badDateRow8.cells)
      (by decide)).1 (by decide) (by decide)

/-- C1, counterexample: an 8-cell row does not always produce a Record —
a published-at text containing a dot that is not a `DD.MM.YYYY` date
makes the extraction fail. -/
theorem extract_cell_count_cex :
    badDateRow8.cells.length = 8 ∧ (sel2item badDateRow8).isOk = false := by
  exact ⟨by decide, by decide⟩

/-- C1, amended: any cell count other than 8 or 7 always fails with the
invalid-parts SchemaError; 8 cells yield a Record provided both
normalized date fields either lack a dot or parse as `DD.MM.YYYY`, and
7 cells likewise yield a Record whose info field is empty. -/
theorem extract_cell_count (row : RowSel) :
    (row.cells.length ≠ 8 → row.cells.length ≠ 7
        → sel2item row = Except.error (invalidPartsMsg row.cells.length row.html))
    ∧ (row.cells.length = 8 → dateOk (publishedAtRaw row) → dateOk (foundAtRaw row)
        → ∃ itm, sel2item row = Except.ok itm)
    ∧ (row.cells.length = 7 → dateOk (publishedAtRaw row) → dateOk (foundAtRaw row)
        → ∃ itm, sel2item row = Except.ok itm ∧ itm.Info = "") := by
  have hl := length_cellTexts row.cells
  refine ⟨?_, ?_, ?_⟩
  · intro h8 h7
    have hp := @padCells_invalid (cellTexts row.cells) row.html
      (by rw [hl]; exact h8) (by rw [hl]; exact h7)
    unfold sel2item
    rw [hp, hl]
  · intro h8 hdp hdf
    have hpad := @padCells_len8 (cellTexts row.cells) row.html (by rw [hl]; exact h8)
    rcases sel2item_cases hpad with ⟨e, he, herr⟩ | ⟨itm, hok, _⟩
    · exfalso
      rcases herr with ⟨hc, hpn, _⟩ | ⟨hc, hpn, _⟩
      · have hs := hdp hc
        rw [hpn] at hs
        simp at hs
      · have hs := hdf hc
        rw [hpn] at hs
        simp at hs
    · exact ⟨itm, hok⟩
  · intro h7 hdp hdf
    have hpad := @padCells_len7 (cellTexts row.cells) row.html (by rw [hl]; exact h7)
    rcases sel2item_cases hpad with ⟨e, he, herr⟩ |
      ⟨itm, hok, _, _, _, _, _, _, _, hInfo, _⟩
    · exfalso
      rcases herr with ⟨hc, hpn, _⟩ | ⟨hc, hpn, _⟩
      · have hs := hdp hc
        rw [hpn] at hs
        simp at hs
      · have hs := hdf hc
        rw [hpn] at hs
        simp at hs
    · refine ⟨itm, hok, ?_⟩
      rw [hInfo, getD7_of_append (by rw [hl]; exact h7), trimText_empty]

/-- C1, witness: the three branches at concrete rows with 6, 8 and 7
cells. -/
theorem extract_cell_count_witness :
    sel2item badRow6 = Except.error (invalidPartsMsg 6 "<tr>bad6</tr>")
    ∧ (∃ itm, sel2item okRow8 = Except.ok itm)
    ∧ (∃ itm, sel2item okRow7 = Except.ok itm ∧ itm.Info = "") := by
  refine ⟨?_, ?_, ?_⟩
  · exact ((extract_cell_count badRow6).1 (by decide) (by decide)).trans (by decide)
  · exact (extract_cell_count okRow8).2.1 (by decide) (by decide) (by decide)
  · exact (extract_cell_count okRow7).2.2 (by decide) (by decide) (by decide)

/-- C9: the stored raw date strings are exactly the `fixDateString`
outputs with no further trim, while the parsed dates, when the raw
string looks like a date, come from the additionally trimmed copy. -/
theorem raw_strings_untrimmed (row : RowSel) (itm : item)
    (h : sel2item row = Except.ok itm) :
    itm.PublishedAtStr = publishedAtRaw row
    ∧ itm.FoundAtStr = foundAtRaw row
    ∧ (containsChar (trimText itm.PublishedAtStr) '.' = true
        → parseDDMMYYYY (trimText itm.PublishedAtStr) = some itm.PublishedAt)
    ∧ (containsChar (trimText itm.FoundAtStr) '.' = true
        → parseDDMMYYYY (trimText itm.FoundAtStr) = some itm.FoundAt) := by
  obtain ⟨ss0, hpad⟩ := sel2item_ok_padCells h
  rcases sel2item_cases hpad with ⟨e, he, _⟩ |
    ⟨itm2, hok, hps, hfs, _, _, _, _, _, _, hPA, hFA, hPS, hFS⟩
  · rw [he] at h
    simp at h
  · rw [hok] at h
    have heq : itm2 = itm := Except.ok.inj h
    subst heq
    refine ⟨hps, hfs, ?_, ?_⟩
    · intro hc
      rw [hps] at hc ⊢
      obtain ⟨d, hd⟩ := Option.isSome_iff_exists.mp (hPS hc)
      rw [hPA, if_pos hc, hd]
      simp [hd]
    · intro hc
      rw [hfs] at hc ⊢
      obtain ⟨d, hd⟩ := Option.isSome_iff_exists.mp (hFS hc)
      rw [hFA, if_pos hc, hd]
      simp [hd]

/-- C9, witness: the row whose published-at cell reads
`"27.03.2025 / 28.03.2025"` stores the raw string `"27.03.2025 "` with
its trailing space, while the parsed date comes from the trimmed copy. -/
theorem raw_strings_untrimmed_witness :
    sel2item spaceRow8 = Except.ok spaceItem
    ∧ (spaceItem.PublishedAtStr = publishedAtRaw spaceRow8
        ∧ spaceItem.FoundAtStr = foundAtRaw spaceRow8
        ∧ (containsChar (trimText spaceItem.PublishedAtStr) '.' = true
            → parseDDMMYYYY (trimText spaceItem.PublishedAtStr) = some spaceItem.PublishedAt)
        ∧ (containsChar (trimText spaceItem.FoundAtStr) '.' = true
            → parseDDMMYYYY (trimText spaceItem.FoundAtStr) = some spaceItem.FoundAt))
    ∧ spaceItem.PublishedAtStr = "27.03.2025 "
    ∧ trimText spaceItem.PublishedAtStr = "27.03.2025" := by
  exact ⟨by decide, raw_strings_untrimmed spaceRow8 spaceItem (by decide), by decide, by decide⟩

/-- C5, counterexample: a found-at cell reading `"abcz"` keeps its
trailing `z` in the stored raw string — no stray-character stripping
exists in the code. -/
theorem stray_strip_cex :
    Except.map item.FoundAtStr (sel2item zRow8) = Except.ok "abcz"
    ∧ ("abcz" : String) ≠ "abc" := by
  exact ⟨by decide, by decide⟩

/-- C5, amended: no stray-character stripping is applied to either date
field; the found-at raw string enters the delimiter-based splitting
exactly as extracted (after the rich-markup override), and published-at
likewise. -/
theorem no_stray_strip (row : RowSel) (ss0 : List String) (itm : item)
    (h : padCells (cellTexts row.cells) row.html = Except.ok ss0)
    (hok : sel2item row = Except.ok itm) :
    itm.FoundAtStr = fixDateString (foundAtRich row ((ss0.map trimText).getD 4 ""))
    ∧ itm.PublishedAtStr = fixDateString ((ss0.map trimText).getD 1 "") := by
  rcases sel2item_cases h with ⟨e, he, _⟩ | ⟨itm2, hok2, hps, hfs, _⟩
  · rw [he] at hok
    simp at hok
  · rw [hok2] at hok
    have heq : itm2 = itm := Except.ok.inj hok
    subst heq
    constructor
    · rw [hfs, foundAtRaw_of h, baseItem_FoundAtStr]
    · rw [hps, publishedAtRaw_of h, baseItem_PublishedAtStr]

/-- C5, witness: the amended statement applied to the row with found-at
text `"abcz"`, whose raw string keeps the trailing `z`. -/
theorem no_stray_strip_witness :
    sel2item zRow8 = Except.ok zItem
    ∧ (zItem.FoundAtStr
          = fixDateString (foundAtRich zRow8 (((cellTexts zRow8.cells).map trimText).getD 4 ""))
        ∧ zItem.PublishedAtStr
          = fixDateString (((cellTexts zRow8.cells).map trimText).getD 1 ""))
    ∧ zItem.FoundAtStr = "abcz" := by
  exact ⟨by decide,
    no_stray_strip zRow8 (cellTexts zRow8.cells) zItem (by decide) (by decide), by decide⟩

theorem loadItems_eq_of_header_ok {doc : Doc} {hl : item}
    (h : sel2item doc.headerRow = Except.ok hl) (hok : headerLabelsOk hl) :
    loadItems doc = loadBody doc.bodyRows := by
  obtain ⟨h1, h2, h3, h4, h5, h6, h7, h8⟩ := hok
  unfold loadItems
  rw [h]
  show (if headerMismatch hl then
      Except.error "labels incorrect, has the page design changed?"
    else loadBody doc.bodyRows) = loadBody doc.bodyRows
  rw [if_neg]
  simp [headerMismatch, h1, h2, h3, h4, h5, h6, h7, h8]

theorem loadItems_eq_of_header_bad {doc : Doc} {hl : item}
    (h : sel2item doc.headerRow = Except.ok hl) (hbad : ¬ headerLabelsOk hl) :
    loadItems doc = Except.error "labels incorrect, has the page design changed?" := by
  unfold loadItems
  rw [h]
  show (if headerMismatch hl then
      Except.error "labels incorrect, has the page design changed?"
    else loadBody doc.bodyRows) = Except.error "labels incorrect, has the page design changed?"
  rw [if_pos]
  by_contra hcon
  apply hbad
  unfold headerMismatch at hcon
  push_neg at hcon
  exact hcon

/-- C3: after a successful header extraction, `loadItems` compares the
eight parsed fields against the fixed German labels; a full match makes
it proceed to the body rows (whose outcome, sorted, is the result), and
any mismatch fails with the labels SchemaError no matter what the body
rows contain. -/
theorem load_header_check (doc : Doc) (hl : item)
    (h : sel2item doc.headerRow = Except.ok hl) :
    (headerLabelsOk hl →
        (∀ e, processRows doc.bodyRows = Except.error e → loadItems doc = Except.error e)
        ∧ (∀ its, processRows doc.bodyRows = Except.ok its
            → loadItems doc = Except.ok (its.mergeSort itemLe)))
    ∧ (¬ headerLabelsOk hl
        → loadItems doc = Except.error "labels incorrect, has the page design changed?"
          ∧ ∀ bs, loadItems ⟨doc.headerRow, bs⟩
              = Except.error "labels incorrect, has the page design changed?") := by
  constructor
  · intro hok
    constructor
    · intro e he
      rw [loadItems_eq_of_header_ok h hok]
      unfold loadBody
      rw [he]
    · intro its hits
      rw [loadItems_eq_of_header_ok h hok]
      unfold loadBody
      rw [hits]
  · intro hbad
    refine ⟨loadItems_eq_of_header_bad h hbad, fun bs => ?_⟩
    exact @loadItems_eq_of_header_bad ⟨doc.headerRow, bs⟩ hl h hbad

/-- C3, witness: a document with the exact labels loads its body row,
and a document whose first label reads `"Behorde"` fails with the labels
SchemaError. -/
theorem load_header_check_witness :
    loadItems cDocGood = Except.ok ([okItem8].mergeSort itemLe)
    ∧ loadItems cDocBad = Except.error "labels incorrect, has the page design changed?" := by
  constructor
  · exact ((load_header_check cDocGood goodHeaderItem (by decide)).1
      (by decide)).2 [okItem8] (by decide)
  · exact ((load_header_check cDocBad badHeaderItem (by decide)).2 (by decide)).1

theorem processRows_abort (r : RowSel) (rest : List RowSel) (e : String)
    (hr : rowText r ≠ "Startseite") (he : sel2item r = Except.error e) :
    ∀ pre : List RowSel,
      (∀ x ∈ pre, rowText x = "Startseite" ∨ ∃ i, sel2item x = Except.ok i)
      → processRows (pre ++ r :: rest)
          = Except.error ("failed to retrieve item from selection " ++ r.html ++ ": " ++ e) := by
  intro pre
  induction pre with
  | nil =>
    intro _
    show processRows (r :: rest) = _
    unfold processRows
    rw [if_neg hr, he]
  | cons x xs ih =>
    intro hpre
    have hx := hpre x (List.mem_cons_self x xs)
    have hxs : ∀ y ∈ xs, rowText y = "Startseite" ∨ ∃ i, sel2item y = Except.ok i :=
      fun y hy => hpre y (List.mem_cons_of_mem x hy)
    show processRows (x :: (xs ++ r :: rest)) = _
    by_cases hsx : rowText x = "Startseite"
    · unfold processRows
      rw [if_pos hsx]
      exact ih hxs
    · rcases hx with hsent | ⟨i, hoki⟩
      · exact absurd hsent hsx
      · unfold processRows
        rw [if_neg hsx, hoki]
        show (match processRows (xs ++ r :: rest) with
          | Except.error e => Except.error e
          | Except.ok items => Except.ok (i :: items)) = _
        rw [ih hxs]

/-- C7: body rows are visited in order; a row whose visible text is the
sentinel `"Startseite"` is skipped; every other row goes through the row
extractor, a successful row is prepended to the remaining results, and
the first failing row aborts the whole pass (and with it the load) with
its wrapped error, independently of the rows after it. -/
theorem load_body_rows :
    (∀ (r : RowSel) (rs : List RowSel), rowText r = "Startseite"
        → processRows (r :: rs) = processRows rs)
    ∧ (∀ (r : RowSel) (rs : List RowSel) (itm : item), rowText r ≠ "Startseite"
        → sel2item r = Except.ok itm
        → processRows (r :: rs) = Except.map (fun l => itm :: l) (processRows rs))
    ∧ (∀ (pre : List RowSel) (r : RowSel) (rest : List RowSel) (e : String),
        (∀ x ∈ pre, rowText x = "Startseite" ∨ ∃ i, sel2item x = Except.ok i)
        → rowText r ≠ "Startseite" → sel2item r = Except.error e
        → processRows (pre ++ r :: rest)
            = Except.error ("failed to retrieve item from selection " ++ r.html ++ ": " ++ e))
    ∧ (∀ (doc : Doc) (hl : item) (e : String), sel2item doc.headerRow = Except.ok hl
        → headerLabelsOk hl → processRows doc.bodyRows = Except.error e
        → loadItems doc = Except.error e) := by
  refine ⟨?_, ?_, ?_, ?_⟩
  · intro r rs hs
    show (if rowText r = "Startseite" then processRows rs
      else match sel2item r with
        | Except.error e =>
          Except.error ("failed to retrieve item from selection " ++ r.html ++ ": " ++ e)
        | Except.ok itm =>
          match processRows rs with
          | Except.error e => Except.error e
          | Except.ok items => Except.ok (itm :: items)) = processRows rs
    rw [if_pos hs]
  · intro r rs itm hs hok
    show (if rowText r = "Startseite" then processRows rs
      else match sel2item r with
        | Except.error e =>
          Except.error ("failed to retrieve item from selection " ++ r.html ++ ": " ++ e)
        | Except.ok itm =>
          match processRows rs with
          | Except.error e => Except.error e
          | Except.ok items => Except.ok (itm :: items))
      = Except.map (fun l => itm :: l) (processRows rs)
    rw [if_neg hs, hok]
    show (match processRows rs with
      | Except.error e => Except.error e
      | Except.ok items => Except.ok (itm :: items))
      = Except.map (fun l => itm :: l) (processRows rs)
    cases processRows rs with
    | error e => rfl
    | ok l => rfl
  · intro pre r rest e hpre hr he
    exact processRows_abort r rest e hr he pre hpre
  · intro doc hl e hh hok he
    rw [loadItems_eq_of_header_ok hh hok]
    unfold loadBody
    rw [he]

/-- C7, witness: the sentinel row is skipped, a good row is prepended, a
failing row aborts with the wrapped message regardless of later rows,
and the error propagates through `loadItems`. -/
theorem load_body_rows_witness :
    processRows [sentinelRow, okRow8] = processRows [okRow8]
    ∧ processRows [okRow8] = Except.map (fun l => okItem8 :: l) (processRows [])
    ∧ processRows ([okRow8] ++ badDateRow8 :: [sentinelRow])
        = Except.error ("failed to retrieve item from selection " ++ badDateRow8.html
            ++ ": " ++ "failed to parse published at x.y")
    ∧ loadItems ⟨headerRowGood, [badDateRow8]⟩ = Except.error wrappedFailMsg := by
  refine ⟨?_, ?_, ?_, ?_⟩
  · exact load_body_rows.1 sentinelRow [okRow8] (by decide)
  · exact load_body_rows.2.1 okRow8 [] okItem8 (by decide) (by decide)
  · exact load_body_rows.2.2.1 [okRow8] badDateRow8 [sentinelRow]
      "failed to parse published at x.y"
      (fun x hx => by
        rw [List.mem_singleton] at hx
        subst hx
        exact Or.inr ⟨okItem8, by decide⟩)
      (by decide) (by decide)
  · exact load_body_rows.2.2.2 ⟨headerRowGood, [badDateRow8]⟩ goodHeaderItem
      wrappedFailMsg (by decide) (by decide) (by decide)

theorem cmp_gt_iff (a b : GoDate) :
    GoDate.cmp a b = Ordering.gt
      ↔ (b.year < a.year ∨ (a.year = b.year ∧ (b.month < a.month
          ∨ (a.month = b.month ∧ b.day < a.day)))) := by
  unfold GoDate.cmp
  split_ifs <;> simp <;> omega

theorem itemLe_not_gt (a b : item) :
    itemLe a b = true ↔ ¬ (GoDate.cmp a.PublishedAt b.PublishedAt = Ordering.gt) := by
  unfold itemLe
  cases GoDate.cmp a.PublishedAt b.PublishedAt <;> simp

theorem itemLe_iff (a b : item) :
    itemLe a b = true
      ↔ (a.PublishedAt.year < b.PublishedAt.year
        ∨ (a.PublishedAt.year = b.PublishedAt.year
          ∧ (a.PublishedAt.month < b.PublishedAt.month
            ∨ (a.PublishedAt.month = b.PublishedAt.month
              ∧ a.PublishedAt.day ≤ b.PublishedAt.day)))) := by
  rw [itemLe_not_gt, cmp_gt_iff]
  omega

theorem itemLe_trans (a b c : item) :
    itemLe a b → itemLe b c → itemLe a c := by
  intro hab hbc
  rw [itemLe_iff] at hab hbc ⊢
  omega

theorem itemLe_total (a b : item) : itemLe a b || itemLe b a := by
  by_cases h : itemLe a b = true
  · simp [h]
  · have hba : itemLe b a = true := by
      rw [itemLe_iff] at h ⊢
      omega
    simp [hba]

theorem itemLe_of_eq {a b : item} (h : a.PublishedAt = b.PublishedAt) :
    itemLe a b = true := by
  rw [itemLe_iff, h]
  omega

theorem loadItems_ok_elim {doc : Doc} {out : List item}
    (h : loadItems doc = Except.ok out) :
    ∃ pre, processRows doc.bodyRows = Except.ok pre ∧ out = pre.mergeSort itemLe := by
  unfold loadItems at h
  cases hh : sel2item doc.headerRow with
  | error e =>
    rw [hh] at h
    simp at h
  | ok hl =>
    rw [hh] at h
    simp only [] at h
    by_cases hm : headerMismatch hl
    · rw [if_pos hm] at h
      simp at h
    · rw [if_neg hm] at h
      unfold loadBody at h
      cases hp : processRows doc.bodyRows with
      | error e =>
        rw [hp] at h
        simp at h
      | ok pre =>
        rw [hp] at h
        simp only [Except.ok.injEq] at h
        exact ⟨pre, rfl, h.symm⟩

/-- C6, counterexample: a body row whose published-at field reads
`"31.12.0000"` parses to a date of year 0, which sorts strictly before
the zero date; the zero-dated record therefore ends up after it, not in
the earliest position. -/
theorem load_sort_cex :
    loadItems cDocZero = Except.ok [y0Item, ndItem]
    ∧ y0Item.PublishedAt ≠ zeroDate
    ∧ ndItem.PublishedAt = zeroDate := by
  refine ⟨?_, by decide, by decide⟩
  rw [@loadItems_eq_of_header_ok _ goodHeaderItem (by decide) (by decide)]
  unfold loadBody
  rw [(by decide : processRows cDocZero.bodyRows = Except.ok [y0Item, ndItem])]
  have hle : itemLe y0Item ndItem = true := by decide
  simp [List.mergeSort, List.splitInTwo, List.merge, hle]

/-- C6, amended: on success `loadItems` returns the stable merge sort of
the extracted rows by published-at: the output is sorted ascending,
records with equal published-at keep their relative order, and every
record preceding a zero-dated record has a published-at no later than
the zero date (zero-dated records are earliest up to the pathological
year-0 dates, which sort before them). -/
theorem load_sort (doc : Doc) (out : List item)
    (h : loadItems doc = Except.ok out) :
    ∃ pre, processRows doc.bodyRows = Except.ok pre
      ∧ out = pre.mergeSort itemLe
      ∧ out.Pairwise (fun a b => itemLe a b = true)
      ∧ (∀ a b : item, a.PublishedAt = b.PublishedAt
          → [a, b].Sublist pre → [a, b].Sublist out)
      ∧ out.Pairwise (fun a b => b.PublishedAt = zeroDate
          → GoDate.cmp a.PublishedAt zeroDate ≠ Ordering.gt) := by
  obtain ⟨pre, hpre, hout⟩ := loadItems_ok_elim h
  subst hout
  have hsorted := List.sorted_mergeSort itemLe_trans itemLe_total pre
  refine ⟨pre, hpre, rfl, hsorted, ?_, ?_⟩
  · intro a b hab hsub
    exact List.pair_sublist_mergeSort itemLe_trans itemLe_total (itemLe_of_eq hab) hsub
  · refine hsorted.imp ?_
    intro a b hab hzero
    have hng := (itemLe_not_gt a b).mp hab
    rw [hzero] at hng
    exact hng

/-- C6, witness: the amended statement applied to the single-row good
document. -/
theorem load_sort_witness :
    ∃ pre, processRows cDocGood.bodyRows = Except.ok pre
      ∧ [okItem8] = pre.mergeSort itemLe
      ∧ ([okItem8] : List item).Pairwise (fun a b => itemLe a b = true)
      ∧ (∀ a b : item, a.PublishedAt = b.PublishedAt
          → [a, b].Sublist pre → [a, b].Sublist [okItem8])
      ∧ ([okItem8] : List item).Pairwise (fun a b => b.PublishedAt = zeroDate
          → GoDate.cmp a.PublishedAt zeroDate ≠ Ordering.gt) := by
  apply load_sort cDocGood [okItem8]
  rw [@loadItems_eq_of_header_ok _ goodHeaderItem (by decide) (by decide)]
  unfold loadBody
  rw [(by decide : processRows cDocGood.bodyRows = Except.ok [okItem8])]
  simp [List.mergeSort]

/-- C8: the deduplication loop never aborts; the new-items result is
exactly the sub-sequence of records whose insert succeeded, in original
order; a uniqueness violation is swallowed silently (no log entry, no
error) and any other insert failure only adds a log entry. -/
theorem dedup_filter (exec : Nat → InsertOutcome) (k : Nat) (items : List item) :
    (dedupLoop exec k items).1
        = ((items.enumFrom k).filter
            (fun p => match exec p.1 with
              | InsertOutcome.inserted => true
              | _ => false)).map Prod.snd
    ∧ (dedupLoop exec k items).2
        = (items.enumFrom k).filterMap
            (fun p => match exec p.1 with
              | InsertOutcome.otherError m =>
                some ("failed to exec insert statement: " ++ m)
              | _ => none)
    ∧ (dedupLoop exec k items).1.Sublist items := by
  induction items generalizing k with
  | nil => simp [dedupLoop]
  | cons itm rest ih =>
    obtain ⟨ih1, ih2, ih3⟩ := ih (k + 1)
    cases hx : exec k with
    | inserted =>
      refine ⟨?_, ?_, ?_⟩
      · simp [dedupLoop, hx, ih1, List.enumFrom]
      · simp [dedupLoop, hx, ih2, List.enumFrom]
      · simp only [dedupLoop, hx]
        exact List.Sublist.cons₂ itm ih3
    | uniqueViolation =>
      refine ⟨?_, ?_, ?_⟩
      · simp [dedupLoop, hx, ih1, List.enumFrom]
      · simp [dedupLoop, hx, ih2, List.enumFrom]
      · simp only [dedupLoop, hx]
        exact List.Sublist.cons itm ih3
    | otherError m =>
      refine ⟨?_, ?_, ?_⟩
      · simp [dedupLoop, hx, ih1, List.enumFrom]
      · simp [dedupLoop, hx, ih2, List.enumFrom]
      · simp only [dedupLoop, hx]
        exact List.Sublist.cons itm ih3

end Lmk
